import Mathlib

/-!
# Verification of the `steam-openid-fetch` relying-party client

Shallow embedding of `src/index.ts` (class `SteamOpenIdClient`): the
authentication initiator (`authenticate`, `chooseProvider`,
`requestAuthentication`, `buildUrl`) and the response-validation pipeline
(`validateResponse`, `checkReturnUrlsAreValid`, `checkParams`, `checkNonce`,
`removeOldNonces`, `getCanonicalClaimedIdentifier`,
`verifyDiscoveredInformation`).

Conventions of the embedding:
* JavaScript `throw new Error(...)` sites become `Except VErr` with one
  constructor per throw site (named after the spec's error taxonomy).
* The instance field `this.nonces` (a string-keyed object mapping nonce
  tokens to `Date`s) becomes an explicit association list `Nonces` threaded
  through `checkNonce` and `validateResponse`; a `Date` is represented by
  its epoch-millisecond value (`Int`), which is the only thing the code
  reads from it. `Date.now()` becomes an explicit `now : Int` argument.
* The external discovery collaborator `discover` (its module is not part of
  the validated core; the spec treats it as an external collaborator) is a
  parameter `disc : String → List Provider`; an empty list plays the role
  of "no providers / null".
* The platform WHATWG `URL` / `URLSearchParams` objects are modelled by
  `URLRec` / `List (String × String)` together with `parseURL`,
  `urlParams` and `urlToString`, covering the hierarchical ASCII URLs this
  library manipulates (scheme://host/path?query#fragment, query parsed by
  splitting on `&` and the first `=` with percent- and plus-decoding, and
  serialized with `application/x-www-form-urlencoded` encoding).
  Normalizations irrelevant to the claims (case folding of scheme/host,
  default-port elision, re-encoding of the serialized form) are omitted.
-/

/-! ## Characters and strings: helpers mirroring the JS string operations -/

/-- The whitespace characters removed by JavaScript `String.prototype.trim`
(restricted to the characters that can occur in this development). -/
def jsSpace (c : Char) : Bool :=
  c = ' ' ∨ c = '\t' ∨ c = '\n' ∨ c = '\r' ∨ c.toNat = 11 ∨ c.toNat = 12 ∨
    c.toNat = 160 ∨ c.toNat = 0xFEFF

/-- `String.prototype.trim` on a character list. -/
def jsTrimList (l : List Char) : List Char :=
  ((l.dropWhile jsSpace).reverse.dropWhile jsSpace).reverse

/-- `String.prototype.trim`. -/
def jsTrim (s : String) : String :=
  String.mk (jsTrimList s.data)

/-- `hay.includes(needle)` on character lists (arguments: needle, hay). -/
def containsSub (needle : List Char) : List Char → Bool
  | [] => needle.isPrefixOf []
  | c :: t => needle.isPrefixOf (c :: t) || containsSub needle t

/-- `hay.includes(needle)` for strings. -/
def strIncludes (hay needle : String) : Bool :=
  containsSub needle.data hay.data

/-- `s.indexOf(c)`: index of the first occurrence of a character. -/
def idxOfChar (c : Char) : List Char → Option Nat
  | [] => none
  | x :: t => if x = c then some 0 else (idxOfChar c t).map (· + 1)

/-- Split off everything before the first occurrence of `sep`; the second
component is `some rest` when `sep` occurred and `none` otherwise. -/
def breakAtChar (sep : Char) : List Char → List Char × Option (List Char)
  | [] => ([], none)
  | c :: t =>
    if c = sep then ([], some t)
    else
      let r := breakAtChar sep t
      (c :: r.1, r.2)

/-- Split a list on every occurrence of `sep` (accumulator version). -/
def splitOnCharAux (sep : Char) : List Char → List Char → List (List Char)
  | [], acc => [acc.reverse]
  | c :: t, acc =>
    if c = sep then acc.reverse :: splitOnCharAux sep t []
    else splitOnCharAux sep t (c :: acc)

/-- Split a list on every occurrence of `sep`. -/
def splitOnChar (sep : Char) (l : List Char) : List (List Char) :=
  splitOnCharAux sep l []

/-! ## Percent-coding (`application/x-www-form-urlencoded`) -/

/-- Value of one hexadecimal digit, as accepted by the urlencoded decoder. -/
def hexVal (c : Char) : Option Nat :=
  if '0' ≤ c ∧ c ≤ '9' then some (c.toNat - 48)
  else if 'A' ≤ c ∧ c ≤ 'F' then some (c.toNat - 55)
  else if 'a' ≤ c ∧ c ≤ 'f' then some (c.toNat - 87)
  else none

/-- Upper-case hexadecimal digit for a value `< 16`. -/
def hexDigitUpper : Nat → Char
  | 0 => '0' | 1 => '1' | 2 => '2' | 3 => '3' | 4 => '4'
  | 5 => '5' | 6 => '6' | 7 => '7' | 8 => '8' | 9 => '9'
  | 10 => 'A' | 11 => 'B' | 12 => 'C' | 13 => 'D' | 14 => 'E' | 15 => 'F'
  | _ => '0'

/-- urlencoded percent-decoding: `+` becomes a space, `%XY` (valid hex)
becomes the coded character, anything else passes through. -/
def percentDecode : List Char → List Char
  | [] => []
  | '%' :: a :: b :: rest2 =>
    match hexVal a, hexVal b with
    | some x, some y => Char.ofNat (16 * x + y) :: percentDecode rest2
    | _, _ => '%' :: percentDecode (a :: b :: rest2)
  | c :: rest => (if c = '+' then ' ' else c) :: percentDecode rest

/-- Characters the urlencoded serializer leaves unescaped. -/
def isUnreservedUrl (c : Char) : Bool :=
  c.isAlpha || c.isDigit || c = '*' || c = '-' || c = '.' || c = '_'

/-- urlencoded percent-encoding of one character (ASCII range). -/
def encodeChar (c : Char) : List Char :=
  if isUnreservedUrl c then [c]
  else if c = ' ' then ['+']
  else ['%', hexDigitUpper (c.toNat / 16 % 16), hexDigitUpper (c.toNat % 16)]

/-- urlencoded percent-encoding of a character list. -/
def encodeList (l : List Char) : List Char :=
  (l.map encodeChar).flatten

/-! ## Query strings and `URLSearchParams` -/

/-- Split one `key=value` piece at its first `=` (no `=`: empty value). -/
def splitKV : List Char → List Char × List Char
  | [] => ([], [])
  | c :: t =>
    if c = '=' then ([], t)
    else
      let r := splitKV t
      (c :: r.1, r.2)

/-- Parse a raw query (without the leading `?`) into decoded key/value
pairs, as `URLSearchParams` does: split on `&`, drop empty pieces, split
each piece at the first `=`, percent-decode both sides. -/
def parseQuery (q : List Char) : List (String × String) :=
  ((splitOnChar '&' q).filter (· ≠ [])).map fun piece =>
    let kv := splitKV piece
    (String.mk (percentDecode kv.1), String.mk (percentDecode kv.2))

/-- `params.get(k)`: first value stored under `k`, if any. -/
def getParam (params : List (String × String)) (k : String) : Option String :=
  (params.find? (fun kv => kv.1 = k)).map (·.2)

/-- Join pieces with a separator character. -/
def joinPieces (sep : Char) : List (List Char) → List Char
  | [] => []
  | [p] => p
  | p :: q :: t => p ++ sep :: joinPieces sep (q :: t)

/-- Serialize key/value pairs as `URLSearchParams.toString` does:
percent-encode each key and value, join them with `=`, join the pairs
with `&`. -/
def serializeQuery (ps : List (String × String)) : List Char :=
  joinPieces '&' (ps.map fun kv => encodeList kv.1.data ++ '=' :: encodeList kv.2.data)

/-! ## The `URL` model -/

/-- Model of a parsed WHATWG `URL`: `protocol` keeps the trailing `:`,
`search` keeps the leading `?` (or is empty), `hash` keeps the leading `#`
(or is empty), `host` includes any port. -/
structure URLRec where
  protocol : String
  host : String
  pathname : String
  search : String
  hash : String
  deriving Repr, DecidableEq

/-- A scheme: one letter followed by letters, digits, `+`, `-` or `.`. -/
def validScheme (l : List Char) : Bool :=
  match l with
  | [] => false
  | c :: t => c.isAlpha && t.all (fun x => x.isAlpha || x.isDigit || x = '+' || x = '-' || x = '.')

/-- Model of `new URL(s)` for hierarchical URLs (`scheme://host/...`);
`none` models the constructor throwing. -/
def parseURL (s : String) : Option URLRec :=
  match breakAtChar ':' s.data with
  | (_, none) => none
  | (scheme, some rest) =>
    if validScheme scheme then
      match rest with
      | '/' :: '/' :: rest2 =>
        let host := rest2.takeWhile fun c => ¬ (c = '/' ∨ c = '?' ∨ c = '#')
        let after := rest2.dropWhile fun c => ¬ (c = '/' ∨ c = '?' ∨ c = '#')
        if host = [] then none
        else
          let path := after.takeWhile fun c => ¬ (c = '?' ∨ c = '#')
          let after2 := after.dropWhile fun c => ¬ (c = '?' ∨ c = '#')
          let pathname := String.mk (if path = [] then ['/'] else path)
          match after2 with
          | '?' :: qrest =>
            let q := qrest.takeWhile fun c => ¬ c = '#'
            let frag := qrest.dropWhile fun c => ¬ c = '#'
            some ⟨String.mk (scheme ++ [':']), String.mk host, pathname,
                  if q = [] then "" else String.mk ('?' :: q), String.mk frag⟩
          | '#' :: _ =>
            some ⟨String.mk (scheme ++ [':']), String.mk host, pathname, "", String.mk after2⟩
          | _ =>
            some ⟨String.mk (scheme ++ [':']), String.mk host, pathname, "", ""⟩
      | _ => none
    else none

/-- The `searchParams` view of a URL. -/
def urlParams (u : URLRec) : List (String × String) :=
  parseQuery (u.search.data.drop 1)

/-- `URL.prototype.toString` (simplified serialization). -/
def urlToString (u : URLRec) : String :=
  u.protocol ++ "//" ++ u.host ++ u.pathname ++ u.search ++ u.hash

/-! ## Dates: the nonce timestamp grammar and `new Date(...)` -/

/-- Numeric value of a decimal digit character. -/
def digitVal (c : Char) : Nat := c.toNat - 48

/-- Line terminators, which `.` in a JS regular expression does not match. -/
def isLineTerm (c : Char) : Bool :=
  c = '\n' ∨ c = '\r' ∨ c.toNat = 8232 ∨ c.toNat = 8233

/-- Model of
`s.match(/^(\d{4}-\d{2}-\d{2}T\d{2}:\d{2}:\d{2}Z)(.*)$/)?.[1]`:
the captured 20-character timestamp prefix, or `none` when the pattern
does not match (the `(.*)$` tail forbids line terminators in the suffix). -/
def nonceRegexMatch : List Char → Option (List Char)
  | y1 :: y2 :: y3 :: y4 :: '-' :: m1 :: m2 :: '-' :: d1 :: d2 :: 'T' ::
      h1 :: h2 :: ':' :: i1 :: i2 :: ':' :: s1 :: s2 :: 'Z' :: rest =>
    if (y1.isDigit && y2.isDigit && y3.isDigit && y4.isDigit &&
        m1.isDigit && m2.isDigit && d1.isDigit && d2.isDigit &&
        h1.isDigit && h2.isDigit && i1.isDigit && i2.isDigit &&
        s1.isDigit && s2.isDigit && rest.all (fun c => ¬ isLineTerm c)) then
      some [y1, y2, y3, y4, '-', m1, m2, '-', d1, d2, 'T',
            h1, h2, ':', i1, i2, ':', s1, s2, 'Z']
    else none
  | _ => none

/-- Is `y` a leap year (proleptic Gregorian, as ECMAScript uses)? -/
def isLeapYear (y : Nat) : Bool :=
  (y % 4 = 0 ∧ y % 100 ≠ 0) ∨ y % 400 = 0

/-- Days in month `m` (1-based) of year `y`. -/
def daysInMonth (y m : Nat) : Nat :=
  if m = 2 then (if isLeapYear y then 29 else 28)
  else if m = 4 ∨ m = 6 ∨ m = 9 ∨ m = 11 then 30
  else 31

/-- Days from the civil date `y-m-d` to 1970-01-01 (negative before the
epoch); the standard era-based proleptic-Gregorian computation. -/
def daysFromCivil (y m d : Int) : Int :=
  let y2 := if m ≤ 2 then y - 1 else y
  let era := Int.ediv y2 400
  let yoe := y2 - era * 400
  let mp := Int.emod (m + 9) 12
  let doy := Int.ediv (153 * mp + 2) 5 + d - 1
  let doe := yoe * 365 + Int.ediv yoe 4 - Int.ediv yoe 100 + doy
  era * 146097 + doe - 719468

/-- Model of `new Date(s).getTime()` for the 20-character
`YYYY-MM-DDTHH:MM:SSZ` strings produced by `nonceRegexMatch`: the epoch
millisecond value, or `none` when ECMAScript yields an invalid date
(out-of-range month, day, hour, minute or second). -/
def parseIsoDate : List Char → Option Int
  | [y1, y2, y3, y4, '-', m1, m2, '-', d1, d2, 'T',
     h1, h2, ':', i1, i2, ':', s1, s2, 'Z'] =>
    let y := 1000 * digitVal y1 + 100 * digitVal y2 + 10 * digitVal y3 + digitVal y4
    let mo := 10 * digitVal m1 + digitVal m2
    let d := 10 * digitVal d1 + digitVal d2
    let h := 10 * digitVal h1 + digitVal h2
    let mi := 10 * digitVal i1 + digitVal i2
    let s := 10 * digitVal s1 + digitVal s2
    if 1 ≤ mo ∧ mo ≤ 12 ∧ 1 ≤ d ∧ d ≤ daysInMonth y mo ∧
        ((h ≤ 23 ∧ mi ≤ 59 ∧ s ≤ 59) ∨ (h = 24 ∧ mi = 0 ∧ s = 0)) then
      some (daysFromCivil y mo d * 86400000 + (h * 3600000 + mi * 60000 + s * 1000 : Nat))
    else none
  | _ => none

/-! ## The client: data model -/

/-- `FIVE_MINUTES_IN_MS` from the source (the freshness window). -/
def FIVE_MINUTES_IN_MS : Nat := 300000

/-- One candidate identity provider, as returned by discovery
(`endpoint?: string` — `none` models `undefined`). -/
structure Provider where
  endpoint : Option String
  version : Option String
  deriving Repr, DecidableEq

/-- The result of a successful validation. -/
structure ProviderResponse where
  authenticated : Bool
  claimedIdentifier : String
  deriving Repr, DecidableEq

/-- The instance-scoped nonce store `this.nonces`: an insertion-ordered map
from nonce token to the epoch milliseconds of its parsed timestamp. -/
abbrev Nonces : Type := List (String × Int)

/-- One error constructor per `throw` site reached by the embedded code,
named after the spec's error taxonomy (§7); payload messages are dropped.
`InvalidResponseUrl` / `InvalidEndpointUrl` model the platform `URL`
constructor throwing on an unparsable input string. -/
inductive VErr where
  | NoProvidersFound
  | MissingEndpoint
  | NoUsableProviders
  | InvalidEndpointUrl
  | InvalidResponseUrl
  | EmptyClientReturnUrl
  | MissingReturnToParam
  | UnparsableUrl
  | ReturnUrlMismatch
  | QueryParamMismatch
  | ProviderError
  | AuthenticationCancelled
  | MissingNonce
  | InvalidNonceFormat
  | NonceTimestampUnparsable
  | NonceSkewTooLarge
  | NonceReplayed
  | MissingClaimedIdentifier
  | NoProviderForClaimedIdentifier
  | MissingSignature
  deriving Repr, DecidableEq

/-! ## The client: operations (translated from `src/index.ts`) -/

/-- `buildUrl(theUrl, params)`: parse the endpoint, clear its query
(`parsedUrl.search = ""`), then `searchParams.set` each parameter in order
(keys here are distinct, so each `set` appends). -/
def buildUrl (theUrl : String) (ps : List (String × String)) : Except VErr String :=
  match parseURL theUrl with
  | none => .error .InvalidEndpointUrl
  | some u =>
    .ok (urlToString { u with search := if ps = [] then "" else String.mk ('?' :: serializeQuery ps) })

/-- The fixed `checkid_setup` parameters of `requestAuthentication`. -/
def authParams (returnUrl : String) : List (String × String) :=
  [("openid.mode", "checkid_setup"),
   ("openid.ns", "http://specs.openid.net/auth/2.0"),
   ("openid.claimed_id", "http://specs.openid.net/auth/2.0/identifier_select"),
   ("openid.identity", "http://specs.openid.net/auth/2.0/identifier_select"),
   ("openid.return_to", returnUrl)]

/-- `requestAuthentication(provider, returnUrl)`: throws `MissingEndpoint`
when `provider.endpoint` is falsy (`undefined` or `""`), otherwise builds
the redirect URL. -/
def requestAuthentication (provider : Provider) (returnUrl : String) : Except VErr String :=
  match provider.endpoint with
  | none => .error .MissingEndpoint
  | some e => if e = "" then .error .MissingEndpoint else buildUrl e (authParams returnUrl)

/-- `chooseProvider(providers, returnUrl)`: walks the list; an exception
thrown by `requestAuthentication` is not caught and propagates (there is no
`try`/`catch` around the `await`); the `NoUsableProviders` throw after the
loop is reached only when the loop runs out of providers. -/
def chooseProvider (providers : List Provider) (returnUrl : String) : Except VErr String :=
  match providers with
  | [] => .error .NoUsableProviders
  | p :: rest =>
    match requestAuthentication p returnUrl with
    | .error e => .error e
    | .ok authUrl => if authUrl = "" then chooseProvider rest returnUrl else .ok authUrl

/-- `authenticate(identifier, returnUrl)`; the external `discover`
collaborator is the parameter `disc` (empty list = no providers / null). -/
def authenticate (disc : String → List Provider) (identifier returnUrl : String) :
    Except VErr String :=
  match disc identifier with
  | [] => .error .NoProvidersFound
  | p :: rest => chooseProvider (p :: rest) returnUrl

/-- `checkReturnUrlsAreValid(openIdReturnUrl, clientReturnUrl)`: the
return-URL binding stage, on the already parsed response URL. JS truthiness
is modelled faithfully: a present-but-empty `openid.return_to` takes the
`MissingReturnToParam` branch, and the final query check fires only when
both raw query strings are non-empty. -/
def checkReturnUrlsAreValid (openIdReturnUrl : URLRec) (clientReturnUrl : String) :
    Except VErr Unit :=
  if clientReturnUrl = "" then .error .EmptyClientReturnUrl
  else
    match getParam (urlParams openIdReturnUrl) "openid.return_to" with
    | none => .error .MissingReturnToParam
    | some openIdReturnTo =>
      if openIdReturnTo = "" then .error .MissingReturnToParam
      else
        match parseURL openIdReturnTo with
        | none => .error .UnparsableUrl
        | some parsedOpenIdReturnTo =>
          match parseURL clientReturnUrl with
          | none => .error .UnparsableUrl
          | some parsedClientReturnUrl =>
            if ¬ (parsedClientReturnUrl.protocol = parsedOpenIdReturnTo.protocol ∧
                  parsedClientReturnUrl.host = parsedOpenIdReturnTo.host ∧
                  parsedClientReturnUrl.pathname = parsedOpenIdReturnTo.pathname) then
              .error .ReturnUrlMismatch
            else if openIdReturnUrl.search ≠ "" ∧ parsedClientReturnUrl.search ≠ "" ∧
                ¬ strIncludes openIdReturnUrl.search parsedClientReturnUrl.search then
              .error .QueryParamMismatch
            else .ok ()

/-- `checkParams(params)`: the parameter sanity check. (The
`params === undefined` branch is unreachable from `validateResponse`, which
always passes the parsed query, and is not modelled.) -/
def checkParams (params : List (String × String)) : Except VErr Unit :=
  if getParam params "openid.mode" = some "error" then .error .ProviderError
  else if getParam params "openid.mode" = some "cancel" then .error .AuthenticationCancelled
  else .ok ()

/-- `removeOldNonces()`: delete every stored nonce whose timestamp differs
from now by more than the freshness window. -/
def removeOldNonces (now : Int) (st : Nonces) : Nonces :=
  List.filter (fun e => (now - e.2).natAbs ≤ FIVE_MINUTES_IN_MS) st

/-- The OpenID-1.x escape at the top of `checkNonce`: skip nonce checking
when `openid.ns` is present and does not contain `"2.0"`. -/
def nonceSkip (params : List (String × String)) : Bool :=
  match getParam params "openid.ns" with
  | none => false
  | some v => ¬ strIncludes v "2.0"

/-- The timestamp embedded in a nonce token, as `checkNonce` computes it:
regex match on the trimmed token, then `new Date(...)`. -/
def parseNonceTs (nonce : String) : Option Int :=
  (nonceRegexMatch (jsTrimList nonce.data)).bind parseIsoDate

/-- `this.nonces` key lookup (`nonce in this.nonces`). -/
def containsKey (st : Nonces) (k : String) : Bool :=
  List.any st (fun e => e.1 = k)

/-- `checkNonce(params)`: the nonce stage. Returns the stage result
together with the store, since the sweep mutates the store even when a
later check throws. -/
def checkNonce (now : Int) (st : Nonces) (params : List (String × String)) :
    Except VErr Unit × Nonces :=
  if nonceSkip params then (.ok (), st)
  else
    match getParam params "openid.response_nonce" with
    | none => (.error .MissingNonce, st)
    | some nonce =>
      if nonce = "" then (.error .MissingNonce, st)
      else
        match nonceRegexMatch (jsTrimList nonce.data) with
        | none => (.error .InvalidNonceFormat, st)
        | some nonceDate =>
          if containsSub ['.'] nonceDate then (.error .InvalidNonceFormat, st)
          else
            match parseIsoDate nonceDate with
            | none => (.error .NonceTimestampUnparsable, st)
            | some timestamp =>
              let st1 := removeOldNonces now st
              if FIVE_MINUTES_IN_MS < (now - timestamp).natAbs then
                (.error .NonceSkewTooLarge, st1)
              else if containsKey st1 nonce then (.error .NonceReplayed, st1)
              else (.ok (), st1 ++ [(nonce, timestamp)])

/-- `getCanonicalClaimedIdentifier(claimedIdentifier)`: truncate at the
first `#` (the `Math.max(0, index)` is the identity there, since a found
index is non-negative). -/
def getCanonicalClaimedIdentifier (claimedIdentifier : String) : String :=
  match idxOfChar '#' claimedIdentifier.data with
  | none => claimedIdentifier
  | some i => String.mk (claimedIdentifier.data.take i)

/-- `verifyDiscoveredInformation(params)`: re-discovery trust anchor plus
signature-presence check; JS truthiness again makes empty strings falsy. -/
def verifyDiscoveredInformation (disc : String → List Provider)
    (params : List (String × String)) : Except VErr ProviderResponse :=
  match getParam params "openid.claimed_id" with
  | none => .error .MissingClaimedIdentifier
  | some claimedIdentifier =>
    if claimedIdentifier = "" then .error .MissingClaimedIdentifier
    else if disc (getCanonicalClaimedIdentifier claimedIdentifier) = [] then
      .error .NoProviderForClaimedIdentifier
    else
      match getParam params "openid.signed", getParam params "openid.sig" with
      | some signed, some sig =>
        if signed = "" ∨ sig = "" then .error .MissingSignature
        else .ok ⟨true, claimedIdentifier⟩
      | _, _ => .error .MissingSignature

/-- `validateResponse(responseUrl, returnUrl)`: the fail-fast pipeline,
with the nonce store threaded explicitly (errors after the nonce stage keep
the store the nonce stage produced). -/
def validateResponse (disc : String → List Provider) (now : Int) (st : Nonces)
    (responseUrl returnUrl : String) : Except VErr ProviderResponse × Nonces :=
  match parseURL (jsTrim responseUrl) with
  | none => (.error .InvalidResponseUrl, st)
  | some assertionUrl =>
    let params := urlParams assertionUrl
    match checkReturnUrlsAreValid assertionUrl returnUrl with
    | .error e => (.error e, st)
    | .ok _ =>
      match checkParams params with
      | .error e => (.error e, st)
      | .ok _ =>
        match checkNonce now st params with
        | (.error e, st1) => (.error e, st1)
        | (.ok _, st1) =>
          match verifyDiscoveredInformation disc params with
          | .error e => (.error e, st1)
          | .ok r => (.ok r, st1)

/-! ## Helper lemmas -/

theorem containsSub_singleton (a : Char) (l : List Char) :
    containsSub [a] l = l.any (fun c => a == c) := by
  induction l with
  | nil => rfl
  | cons c t ih => simp [containsSub, List.isPrefixOf, ih]

theorem containsKey_filter_of_mem {st : Nonces} {k : String} {v : Int}
    (p : String × Int → Bool) (hmem : (k, v) ∈ st) (hp : p (k, v) = true) :
    containsKey (List.filter p st) k = true := by
  unfold containsKey
  rw [List.any_eq_true]
  exact ⟨(k, v), List.mem_filter.mpr ⟨hmem, hp⟩, by simp⟩

theorem isDigit_ne_dot {c : Char} (h : c.isDigit = true) : ('.' == c) = false := by
  rw [beq_eq_false_iff_ne]
  intro hc
  rw [← hc] at h
  exact absurd h (by decide)

/-- The captured timestamp prefix of a nonce can never contain a `.`
(so the fractional-seconds rejection in `checkNonce` can never fire). -/
theorem nonceRegexMatch_no_dot {l nd : List Char}
    (h : nonceRegexMatch l = some nd) : containsSub ['.'] nd = false := by
  unfold nonceRegexMatch at h
  split at h
  · split at h
    · rename_i hcond
      simp only [Bool.and_eq_true] at hcond
      obtain ⟨⟨⟨⟨⟨⟨⟨⟨⟨⟨⟨⟨⟨⟨h1, h2⟩, h3⟩, h4⟩, h5⟩, h6⟩, h7⟩, h8⟩, h9⟩, h10⟩,
        h11⟩, h12⟩, h13⟩, h14⟩, _⟩ := hcond
    



      cases h
      rw [containsSub_singleton]
      simp [List.any_cons, isDigit_ne_dot h1, isDigit_ne_dot h2, isDigit_ne_dot h3,
        isDigit_ne_dot h4, isDigit_ne_dot h5, isDigit_ne_dot h6, isDigit_ne_dot h7,
        isDigit_ne_dot h8, isDigit_ne_dot h9, isDigit_ne_dot h10, isDigit_ne_dot h11,
        isDigit_ne_dot h12, isDigit_ne_dot h13, isDigit_ne_dot h14]
    · exact absurd h (by simp)
  · exact absurd h (by simp)

/-- Inversion of a successful (non-skipped) `checkNonce` run: the response
carried a non-empty nonce, its embedded timestamp parsed, the skew check
passed, the replay lookup (on the swept store) failed, and the resulting
store is the swept store with the nonce appended. -/
theorem checkNonce_ok_inv {now : Int} {st : Nonces} {params : List (String × String)}
    {st' : Nonces} (hns : nonceSkip params = false)
    (h : checkNonce now st params = (.ok (), st')) :
    ∃ n ts, getParam params "openid.response_nonce" = some n ∧ n ≠ "" ∧
      parseNonceTs n = some ts ∧ (now - ts).natAbs ≤ FIVE_MINUTES_IN_MS ∧
      containsKey (removeOldNonces now st) n = false ∧
      st' = removeOldNonces now st ++ [(n, ts)] := by
  unfold checkNonce at h
  rw [hns] at h
  simp only [Bool.false_eq_true, if_false] at h
  split at h
  · exact absurd h (by simp)
  next n hn =>
    split at h
    · exact absurd h (by simp)
    next hne =>
      split at h
      · exact absurd h (by simp)
      next nd hfmt =>
        split at h
        · exact absurd h (by simp)
        next hdot =>
          split at h
          · exact absurd h (by simp)
          next ts hts =>
            split at h
            · exact absurd h (by simp)
            next hskew =>
              split at h
              · exact absurd h (by simp)
              next hrep =>
                have hpair := Prod.mk.injEq _ _ _ _ ▸ h
                refine ⟨n, ts, hn, hne, ?_, by omega, by simpa using hrep, hpair.2.symm⟩
                simp [parseNonceTs, hfmt, hts]

/-- Re-running `checkNonce` on the store a successful run produced (same
parameters, same clock) fails with `NonceReplayed`: the inserted token is
within the freshness window, so the sweep keeps it and the replay lookup
finds it. -/
theorem checkNonce_replay {now : Int} {st : Nonces} {params : List (String × String)}
    {st' : Nonces} (hns : nonceSkip params = false)
    (h : checkNonce now st params = (.ok (), st')) :
    checkNonce now st' params = (.error .NonceReplayed, removeOldNonces now st') := by
  obtain ⟨n, ts, hn, hne, hpt, hskew, _, hst⟩ := checkNonce_ok_inv hns h
  have hfmt : ∃ nd, nonceRegexMatch (jsTrimList n.data) = some nd ∧ parseIsoDate nd = some ts := by
    unfold parseNonceTs at hpt
    cases hf : nonceRegexMatch (jsTrimList n.data) with
    | none => rw [hf] at hpt; exact absurd hpt (by simp)
    | some nd => rw [hf] at hpt; exact ⟨nd, rfl, hpt⟩
  obtain ⟨nd, hf, hts⟩ := hfmt
  have hmem : (n, ts) ∈ st' := hst ▸ List.mem_append_right _ (by simp)
  have hkey : containsKey (removeOldNonces now st') n = true := by
    unfold removeOldNonces
    exact containsKey_filter_of_mem _ hmem (by simp; omega)
  unfold checkNonce
  rw [hns]
  simp only [Bool.false_eq_true, if_false, hn, Option.some.injEq]
  simp only [hf, nonceRegexMatch_no_dot hf, Bool.false_eq_true, if_false, hts, if_neg hne]
  rw [if_neg (by omega), if_pos hkey]

/-- C1: for every response URL whose parameters indicate OpenID 2.0 mode
(the nonce check is not skipped) and which passes all validation stages,
calling `validateResponse` twice with byte-identical response URLs and the
same returnUrl succeeds at most once: given that the first call succeeds,
the second call, run against the store the first call produced, fails with
`NonceReplayed`, because the nonce token inserted by the first call is
found in the store by the second. -/
theorem validateResponse_replay (disc : String → List Provider) (now : Int) (st : Nonces)
    (responseUrl returnUrl : String) (u : URLRec) (r : ProviderResponse) (st' : Nonces)
    (hu : parseURL (jsTrim responseUrl) = some u)
    (hns : nonceSkip (urlParams u) = false)
    (hrun : validateResponse disc now st responseUrl returnUrl = (.ok r, st')) :
    (validateResponse disc now st' responseUrl returnUrl).1 = .error .NonceReplayed := by
  unfold validateResponse at hrun ⊢
  simp only [hu] at hrun ⊢
  cases hb : checkReturnUrlsAreValid u returnUrl with
  | error e => simp only [hb] at hrun; exact absurd hrun (by simp)
  | ok v =>
    cases v
    simp only [hb] at hrun ⊢
    cases hp : checkParams (urlParams u) with
    | error e => simp only [hp] at hrun; exact absurd hrun (by simp)
    | ok v =>
      cases v
      simp only [hp] at hrun ⊢
      cases hcn : checkNonce now st (urlParams u) with
      | mk res st1 =>
        cases res with
        | error e => simp only [hcn] at hrun; exact absurd hrun (by simp)
        | ok v =>
          cases v
          simp only [hcn] at hrun
          cases hv : verifyDiscoveredInformation disc (urlParams u) with
          | error e => simp only [hv] at hrun; exact absurd hrun (by simp)
          | ok r2 =>
            simp only [hv] at hrun
            have hst1 : st1 = st' := by
              have := Prod.mk.injEq _ _ _ _ ▸ hrun
              exact this.2
            subst hst1
            rw [checkNonce_replay hns hcn]

set_option maxRecDepth 100000 in
/-- C1 witness: a concrete successful validation followed by re-validation
of the byte-identical response URL, which fails with `NonceReplayed`. -/
theorem validateResponse_replay_witness :
    (validateResponse (fun _ => [⟨some "https://steamcommunity.com/openid/login", none⟩])
      1577836800000 [("2020-01-01T00:00:00Zabc", 1577836800000)]
      "https://a.example/cb?openid.return_to=https://a.example/cb&openid.claimed_id=https://steamcommunity.com/openid/id/76561198000000000&openid.signed=signed&openid.sig=sig&openid.response_nonce=2020-01-01T00:00:00Zabc"
      "https://a.example/cb").1 = .error .NonceReplayed :=
  validateResponse_replay
    (fun _ => [⟨some "https://steamcommunity.com/openid/login", none⟩])
    1577836800000 []
    "https://a.example/cb?openid.return_to=https://a.example/cb&openid.claimed_id=https://steamcommunity.com/openid/id/76561198000000000&openid.signed=signed&openid.sig=sig&openid.response_nonce=2020-01-01T00:00:00Zabc"
    "https://a.example/cb"
    ⟨"https:", "a.example", "/cb",
     "?openid.return_to=https://a.example/cb&openid.claimed_id=https://steamcommunity.com/openid/id/76561198000000000&openid.signed=signed&openid.sig=sig&openid.response_nonce=2020-01-01T00:00:00Zabc",
     ""⟩
    ⟨true, "https://steamcommunity.com/openid/id/76561198000000000"⟩
    [("2020-01-01T00:00:00Zabc", 1577836800000)]
    (by rfl) (by rfl) (by rfl)

/-- C2: invariants of the nonce store at a successful (non-skipped)
`checkNonce` run: (a) the sweep leaves only entries whose stored timestamp
is within the 5-minute freshness window of now — the store on which the
replay lookup is performed; (b) every entry of the resulting store is
within the window; (c) the resulting store is the swept store with the new
nonce token mapped to its parsed embedded timestamp appended; (d) the
"every entry maps a nonce token to its parsed embedded timestamp" property
is preserved. -/
theorem checkNonce_store_invariant (now : Int) (st : Nonces) (params : List (String × String))
    (st' : Nonces)
    (hns : nonceSkip params = false)
    (hrun : checkNonce now st params = (.ok (), st')) :
    (∀ k ts, (k, ts) ∈ removeOldNonces now st → (now - ts).natAbs ≤ FIVE_MINUTES_IN_MS) ∧
    (∀ k ts, (k, ts) ∈ st' → (now - ts).natAbs ≤ FIVE_MINUTES_IN_MS) ∧
    (∃ n ts, getParam params "openid.response_nonce" = some n ∧ parseNonceTs n = some ts ∧
       st' = removeOldNonces now st ++ [(n, ts)]) ∧
    ((∀ k ts, (k, ts) ∈ st → parseNonceTs k = some ts) →
       ∀ k ts, (k, ts) ∈ st' → parseNonceTs k = some ts) := by
  obtain ⟨n, ts, hn, hne, hpt, hskew, hrep, hst⟩ := checkNonce_ok_inv hns hrun
  have hsweep : ∀ k ts0, (k, ts0) ∈ removeOldNonces now st →
      (now - ts0).natAbs ≤ FIVE_MINUTES_IN_MS := by
    intro k ts0 hmem
    unfold removeOldNonces at hmem
    simpa using (List.mem_filter.mp hmem).2
  have hsweepmem : ∀ k ts0, (k, ts0) ∈ removeOldNonces now st → (k, ts0) ∈ st := by
    intro k ts0 hmem
    exact (List.mem_filter.mp hmem).1
  refine ⟨hsweep, ?_, ⟨n, ts, hn, hpt, hst⟩, ?_⟩
  · intro k ts0 hmem
    rw [hst] at hmem
    rcases List.mem_append.mp hmem with hm | hm
    · exact hsweep _ _ hm
    · simp only [List.mem_singleton, Prod.mk.injEq] at hm
      rw [hm.2]
      exact hskew
  · intro hinv k ts0 hmem
    rw [hst] at hmem
    rcases List.mem_append.mp hmem with hm | hm
    · exact hinv _ _ (hsweepmem _ _ hm)
    · simp only [List.mem_singleton, Prod.mk.injEq] at hm
      rw [hm.1, hm.2]
      exact hpt

/-- C2 witness: the invariants instantiated at a concrete successful run
inserting a fresh nonce into an empty store. -/
theorem checkNonce_store_invariant_witness :
    (∀ k ts, (k, ts) ∈ removeOldNonces 1577836800000 ([] : Nonces) →
       (1577836800000 - ts).natAbs ≤ FIVE_MINUTES_IN_MS) ∧
    (∀ k ts, (k, ts) ∈ ([("2020-01-01T00:00:00Zw2", 1577836800000)] : Nonces) →
       (1577836800000 - ts).natAbs ≤ FIVE_MINUTES_IN_MS) ∧
    (∃ n ts, getParam [("openid.response_nonce", "2020-01-01T00:00:00Zw2")]
         "openid.response_nonce" = some n ∧ parseNonceTs n = some ts ∧
       ([("2020-01-01T00:00:00Zw2", 1577836800000)] : Nonces) =
         removeOldNonces 1577836800000 [] ++ [(n, ts)]) ∧
    ((∀ k ts, (k, ts) ∈ ([] : Nonces) → parseNonceTs k = some ts) →
       ∀ k ts, (k, ts) ∈ ([("2020-01-01T00:00:00Zw2", 1577836800000)] : Nonces) →
         parseNonceTs k = some ts) :=
  checkNonce_store_invariant 1577836800000 []
    [("openid.response_nonce", "2020-01-01T00:00:00Zw2")]
    [("2020-01-01T00:00:00Zw2", 1577836800000)] (by rfl) (by rfl)

/-- C4: for a response whose (non-skipped) nonce has a well-formed,
parsable timestamp `ts`: a nonce whose timestamp differs from now by
exactly the freshness window (300000 ms) is accepted (when not replayed),
and the run fails with `NonceSkewTooLarge` exactly when the absolute
difference strictly exceeds the window. -/
theorem checkNonce_skew_boundary (now : Int) (st : Nonces) (params : List (String × String))
    (n : String) (ts : Int)
    (hns : nonceSkip params = false)
    (hn : getParam params "openid.response_nonce" = some n)
    (hne : n ≠ "")
    (hts : parseNonceTs n = some ts) :
    ((now - ts).natAbs = FIVE_MINUTES_IN_MS →
       containsKey (removeOldNonces now st) n = false →
       checkNonce now st params = (.ok (), removeOldNonces now st ++ [(n, ts)])) ∧
    (((checkNonce now st params).1 = .error .NonceSkewTooLarge) ↔
       FIVE_MINUTES_IN_MS < (now - ts).natAbs) := by
  obtain ⟨nd, hf, hpd⟩ : ∃ nd, nonceRegexMatch (jsTrimList n.data) = some nd ∧
      parseIsoDate nd = some ts := by
    unfold parseNonceTs at hts
    cases hf : nonceRegexMatch (jsTrimList n.data) with
    | none => rw [hf] at hts; exact absurd hts (by simp)
    | some nd => rw [hf] at hts; exact ⟨nd, rfl, hts⟩
  unfold checkNonce
  rw [hns]
  simp only [Bool.false_eq_true, if_false, hn, Option.some.injEq]
  simp only [hf, nonceRegexMatch_no_dot hf, Bool.false_eq_true, if_false, hpd, if_neg hne]
  constructor
  · intro h1 h2
    rw [if_neg (by omega), if_neg (by simp [h2])]
  · by_cases hskew : FIVE_MINUTES_IN_MS < (now - ts).natAbs
    · rw [if_pos hskew]
      simp [hskew]
    · rw [if_neg hskew]
      by_cases hrep : containsKey (removeOldNonces now st) n = true
      · rw [if_pos hrep]
        simp [hskew]
      · rw [if_neg hrep]
        simp [hskew]

/-- C4 witness: the skew boundary instantiated at a concrete nonce whose
timestamp sits exactly 300000 ms before now. -/
theorem checkNonce_skew_boundary_witness :
    (((1591012800000 + 300000 : Int) - 1591012800000).natAbs = FIVE_MINUTES_IN_MS →
       containsKey (removeOldNonces (1591012800000 + 300000) [])
         "2020-06-01T12:00:00Zedge" = false →
       checkNonce (1591012800000 + 300000) []
           [("openid.response_nonce", "2020-06-01T12:00:00Zedge")] =
         (.ok (), removeOldNonces (1591012800000 + 300000) [] ++
           [("2020-06-01T12:00:00Zedge", 1591012800000)])) ∧
    (((checkNonce (1591012800000 + 300000) []
          [("openid.response_nonce", "2020-06-01T12:00:00Zedge")]).1 =
        .error .NonceSkewTooLarge) ↔
       FIVE_MINUTES_IN_MS < ((1591012800000 + 300000 : Int) - 1591012800000).natAbs) :=
  checkNonce_skew_boundary (1591012800000 + 300000) []
    [("openid.response_nonce", "2020-06-01T12:00:00Zedge")]
    "2020-06-01T12:00:00Zedge" 1591012800000 (by rfl) (by rfl) (by decide) (by rfl)

/-- C6: a response whose parameters contain `openid.mode=cancel` and which
passes the return-URL binding check fails with `AuthenticationCancelled`,
and the nonce store is left unchanged: the parameter sanity check runs
strictly before the nonce check and no earlier stage mutates the store. -/
theorem validateResponse_cancel (disc : String → List Provider) (now : Int) (st : Nonces)
    (responseUrl returnUrl : String) (u : URLRec)
    (hu : parseURL (jsTrim responseUrl) = some u)
    (hbind : checkReturnUrlsAreValid u returnUrl = .ok ())
    (hmode : getParam (urlParams u) "openid.mode" = some "cancel") :
    validateResponse disc now st responseUrl returnUrl =
      (.error .AuthenticationCancelled, st) := by
  unfold validateResponse
  simp only [hu, hbind]
  have hp : checkParams (urlParams u) = .error .AuthenticationCancelled := by
    unfold checkParams
    rw [hmode]
    simp
  simp only [hp]

set_option maxRecDepth 100000 in
/-- C6 witness: a concrete cancelled response; the store (holding one
unrelated entry) is returned untouched. -/
theorem validateResponse_cancel_witness :
    validateResponse (fun _ => []) 0 [("old", 0)]
        "https://a.example/cb?openid.return_to=https://a.example/cb&openid.mode=cancel"
        "https://a.example/cb" =
      (.error .AuthenticationCancelled, [("old", 0)]) :=
  validateResponse_cancel (fun _ => []) 0 [("old", 0)]
    "https://a.example/cb?openid.return_to=https://a.example/cb&openid.mode=cancel"
    "https://a.example/cb"
    ⟨"https:", "a.example", "/cb",
     "?openid.return_to=https://a.example/cb&openid.mode=cancel", ""⟩
    (by rfl) (by rfl) (by rfl)

/-- C8 (amended): for every response URL whose trimmed form parses as a
URL, `validateResponse` with the empty string as returnUrl fails with
`EmptyClientReturnUrl`, whatever the response's parameters, and leaves the
store unchanged. -/
theorem validateResponse_empty_return_url (disc : String → List Provider) (now : Int)
    (st : Nonces) (responseUrl : String) (u : URLRec)
    (hu : parseURL (jsTrim responseUrl) = some u) :
    validateResponse disc now st responseUrl "" = (.error .EmptyClientReturnUrl, st) := by
  unfold validateResponse
  simp only [hu]
  have hb : checkReturnUrlsAreValid u "" = .error .EmptyClientReturnUrl := by
    unfold checkReturnUrlsAreValid
    simp
  simp only [hb]

set_option maxRecDepth 100000 in
/-- C8 witness: the amended property at a concrete parsable response URL
and a non-empty store. -/
theorem validateResponse_empty_return_url_witness :
    validateResponse (fun _ => []) 0 [("z", 3)] "https://x.example/p?q=1" "" =
      (.error .EmptyClientReturnUrl, [("z", 3)]) :=
  validateResponse_empty_return_url (fun _ => []) 0 [("z", 3)] "https://x.example/p?q=1"
    ⟨"https:", "x.example", "/p", "?q=1", ""⟩ (by rfl)

/-- C8 counterexample: with an unparsable response URL and the empty
returnUrl, `validateResponse` fails when the platform URL constructor
throws — before `checkReturnUrlsAreValid` ever runs — so the failure is
not `EmptyClientReturnUrl`, refuting "regardless of the content of
responseUrl". -/
theorem validateResponse_parse_error_dominates :
    (validateResponse (fun _ => []) 0 [] "notaurl" "").1 = .error .InvalidResponseUrl ∧
    VErr.InvalidResponseUrl ≠ VErr.EmptyClientReturnUrl :=
  ⟨rfl, by decide⟩

/-- C3: `chooseProvider` does not skip a provider without an endpoint: the
`MissingEndpoint` exception thrown by `requestAuthentication` on the first
candidate propagates out (there is no catch), so `authenticate` on the
list `[{endpoint: undefined}, {endpoint: steam}]` fails with
`MissingEndpoint` instead of returning a URL built from the second
candidate. -/
theorem chooseProvider_propagates_missing_endpoint :
    authenticate
        (fun _ => [⟨none, none⟩, ⟨some "https://steamcommunity.com/openid/login", none⟩])
        "https://steamcommunity.com/openid" "https://a.example/cb" =
      .error .MissingEndpoint ∧
    chooseProvider [⟨none, none⟩, ⟨some "https://steamcommunity.com/openid/login", none⟩]
        "https://a.example/cb" = .error .MissingEndpoint :=
  ⟨rfl, rfl⟩

set_option maxRecDepth 1000000 in
/-- C10: the nonce store is keyed on the raw, untrimmed
`openid.response_nonce` value while the timestamp is taken from its
trimmed form: two otherwise identical valid 2.0 responses whose nonce
values differ only in a leading space (`%20`) both validate — the second
is not rejected as `NonceReplayed` — and are stored under distinct keys
embedding the same timestamp. -/
theorem whitespace_nonce_replay_escape :
    validateResponse (fun _ => [⟨some "https://steamcommunity.com/openid/login", none⟩])
        1577836800000 []
        "https://a.example/cb?openid.return_to=https://a.example/cb&openid.claimed_id=https://steamcommunity.com/openid/id/7&openid.signed=s&openid.sig=g&openid.response_nonce=2020-01-01T00:00:00Zxyz"
        "https://a.example/cb" =
      (.ok ⟨true, "https://steamcommunity.com/openid/id/7"⟩,
       [("2020-01-01T00:00:00Zxyz", 1577836800000)]) ∧
    validateResponse (fun _ => [⟨some "https://steamcommunity.com/openid/login", none⟩])
        1577836800000 [("2020-01-01T00:00:00Zxyz", 1577836800000)]
        "https://a.example/cb?openid.return_to=https://a.example/cb&openid.claimed_id=https://steamcommunity.com/openid/id/7&openid.signed=s&openid.sig=g&openid.response_nonce=%202020-01-01T00:00:00Zxyz"
        "https://a.example/cb" =
      (.ok ⟨true, "https://steamcommunity.com/openid/id/7"⟩,
       [("2020-01-01T00:00:00Zxyz", 1577836800000),
        (" 2020-01-01T00:00:00Zxyz", 1577836800000)]) ∧
    (" 2020-01-01T00:00:00Zxyz" : String) ≠ "2020-01-01T00:00:00Zxyz" ∧
    parseNonceTs " 2020-01-01T00:00:00Zxyz" = parseNonceTs "2020-01-01T00:00:00Zxyz" :=
  ⟨rfl, rfl, by decide, rfl⟩

/-- C5 counterexample: a returnUrl each of whose query parameters appears
verbatim as a substring of the response URL's query string, yet the
binding stage fails with `QueryParamMismatch`, because the code tests
containment of the whole raw query string, not of each parameter. -/
theorem query_substring_rule_counterexample :
    ((parseURL "https://a.example/cb?openid.return_to=https://a.example/cb&b=2&a=1").map
       (fun u => checkReturnUrlsAreValid u "https://a.example/cb?a=1&b=2")) =
      some (.error .QueryParamMismatch) ∧
    ((parseURL "https://a.example/cb?openid.return_to=https://a.example/cb&b=2&a=1").bind
       (fun u => (parseURL "https://a.example/cb?a=1&b=2").map (fun cu =>
          (urlParams cu).all (fun kv => strIncludes u.search (kv.1 ++ "=" ++ kv.2))))) =
      some true :=
  ⟨rfl, rfl⟩

/-- C5 (amended): once the earlier binding checks pass (non-empty
returnUrl, present/non-empty/parsable `openid.return_to`, parsable
returnUrl, equal scheme/host/path), the stage fails with
`QueryParamMismatch` exactly when both raw query strings are non-empty and
the returnUrl's raw query string (leading `?` included) is not a
contiguous substring of the response URL's raw query string — raw
substring containment of the whole query string, not per-parameter
containment — and succeeds otherwise. -/
theorem checkReturnUrls_raw_containment (u : URLRec) (clientReturnUrl rt : String)
    (rtu cu : URLRec)
    (hret : clientReturnUrl ≠ "")
    (hrt : getParam (urlParams u) "openid.return_to" = some rt)
    (hrtne : rt ≠ "")
    (hrtu : parseURL rt = some rtu)
    (hcu : parseURL clientReturnUrl = some cu)
    (hmatch : cu.protocol = rtu.protocol ∧ cu.host = rtu.host ∧ cu.pathname = rtu.pathname) :
    (checkReturnUrlsAreValid u clientReturnUrl = .error .QueryParamMismatch ↔
      (u.search ≠ "" ∧ cu.search ≠ "" ∧ strIncludes u.search cu.search = false)) ∧
    (checkReturnUrlsAreValid u clientReturnUrl = .ok () ↔
      ¬ (u.search ≠ "" ∧ cu.search ≠ "" ∧ strIncludes u.search cu.search = false)) := by
  unfold checkReturnUrlsAreValid
  rw [if_neg hret]
  simp only [hrt, hrtu, hcu, if_neg hrtne]
  rw [if_neg (by simp [hmatch.1, hmatch.2.1, hmatch.2.2])]
  by_cases hq : u.search ≠ "" ∧ cu.search ≠ "" ∧ ¬ strIncludes u.search cu.search
  · rw [if_pos hq]
    constructor
    · exact iff_of_true rfl ⟨hq.1, hq.2.1, by simpa using hq.2.2⟩
    · exact iff_of_false (by simp) (not_not_intro ⟨hq.1, hq.2.1, by simpa using hq.2.2⟩)
  · rw [if_neg hq]
    constructor
    · exact iff_of_false (by simp) fun hc => hq ⟨hc.1, hc.2.1, by simpa using hc.2.2⟩
    · exact iff_of_true rfl fun hc => hq ⟨hc.1, hc.2.1, by simpa using hc.2.2⟩

/-- C5 witness: the amended containment rule instantiated at a concrete
response URL whose query contains the returnUrl's query verbatim. -/
theorem checkReturnUrls_raw_containment_witness :
    (checkReturnUrlsAreValid
        ⟨"https:", "a.example", "/cb", "?x=1&openid.return_to=https://a.example/cb", ""⟩
        "https://a.example/cb?x=1" = .error .QueryParamMismatch ↔
      (("?x=1&openid.return_to=https://a.example/cb" : String) ≠ "" ∧
       ("?x=1" : String) ≠ "" ∧
       strIncludes "?x=1&openid.return_to=https://a.example/cb" "?x=1" = false)) ∧
    (checkReturnUrlsAreValid
        ⟨"https:", "a.example", "/cb", "?x=1&openid.return_to=https://a.example/cb", ""⟩
        "https://a.example/cb?x=1" = .ok () ↔
      ¬ (("?x=1&openid.return_to=https://a.example/cb" : String) ≠ "" ∧
         ("?x=1" : String) ≠ "" ∧
         strIncludes "?x=1&openid.return_to=https://a.example/cb" "?x=1" = false)) :=
  checkReturnUrls_raw_containment
    ⟨"https:", "a.example", "/cb", "?x=1&openid.return_to=https://a.example/cb", ""⟩
    "https://a.example/cb?x=1" "https://a.example/cb"
    ⟨"https:", "a.example", "/cb", "", ""⟩
    ⟨"https:", "a.example", "/cb", "?x=1", ""⟩
    (by decide) (by rfl) (by decide) (by rfl) (by rfl) (by exact ⟨rfl, rfl, rfl⟩)

/-- If a character occurs in a list, `idxOfChar` finds an index for it. -/
theorem idxOfChar_isSome_of_mem {c : Char} {l : List Char} (h : c ∈ l) :
    ∃ i, idxOfChar c l = some i := by
  induction l with
  | nil => exact absurd h (by simp)
  | cons x t ih =>
    unfold idxOfChar
    by_cases hx : x = c
    · exact ⟨0, by rw [if_pos hx]⟩
    · rcases List.mem_cons.mp h with hh | hh
      · exact absurd hh.symm hx
      · obtain ⟨i, hi⟩ := ih hh
        exact ⟨i + 1, by rw [if_neg hx, hi]; rfl⟩

/-- Truncating at the index of the first occurrence is `takeWhile`. -/
theorem take_idxOfChar {c : Char} :
    ∀ {l : List Char} {i : Nat}, idxOfChar c l = some i →
      l.take i = l.takeWhile (fun x => x ≠ c) := by
  intro l
  induction l with
  | nil => intro i h; exact absurd h (by simp [idxOfChar])
  | cons x t ih =>
    intro i h
    unfold idxOfChar at h
    by_cases hx : x = c
    · rw [if_pos hx] at h
      have : i = 0 := by simpa using h.symm
      subst this
      simp [List.takeWhile_cons, hx]
    · rw [if_neg hx] at h
      cases hj : idxOfChar c t with
      | none => rw [hj] at h; exact absurd h (by simp)
      | some j =>
        rw [hj] at h
        have : i = j + 1 := by simpa using h.symm
        subst this
        simp [List.takeWhile_cons, hx, ih hj]

/-- `getCanonicalClaimedIdentifier` truncates at the first `#`. -/
theorem getCanonical_eq_takeWhile {v : String} (h : '#' ∈ v.data) :
    getCanonicalClaimedIdentifier v = String.mk (v.data.takeWhile (fun c => c ≠ '#')) := by
  unfold getCanonicalClaimedIdentifier
  obtain ⟨i, hi⟩ := idxOfChar_isSome_of_mem h
  simp only [hi]
  rw [take_idxOfChar hi]

/-- C7: for a response whose `openid.claimed_id` value `v` contains a `#`
fragment marker and which passes the remaining checks, the re-discovery
lookup is performed against `v` truncated at the first `#`, while the
returned `ProviderResponse` is `{authenticated: true, claimedIdentifier:
v}` with the original, un-truncated value. -/
theorem verifyDiscovered_fragment (disc : String → List Provider)
    (params : List (String × String)) (v signed sig : String)
    (hv : getParam params "openid.claimed_id" = some v)
    (hne : v ≠ "")
    (hfrag : '#' ∈ v.data)
    (hdisc : disc (String.mk (v.data.takeWhile (fun c => c ≠ '#'))) ≠ [])
    (hsigned : getParam params "openid.signed" = some signed) (hsne : signed ≠ "")
    (hsig : getParam params "openid.sig" = some sig) (hgne : sig ≠ "") :
    getCanonicalClaimedIdentifier v = String.mk (v.data.takeWhile (fun c => c ≠ '#')) ∧
    verifyDiscoveredInformation disc params = .ok ⟨true, v⟩ := by
  have hcan := getCanonical_eq_takeWhile hfrag
  refine ⟨hcan, ?_⟩
  unfold verifyDiscoveredInformation
  simp only [hv, if_neg hne, hcan]
  rw [if_neg hdisc]
  simp only [hsigned, hsig]
  rw [if_neg (by simp [hsne, hgne])]

set_option maxRecDepth 100000 in
/-- C7 witness: a concrete claimed identifier with a `#frag` suffix; the
discovery function answers only for the truncated identifier, and the
returned `claimedIdentifier` keeps the suffix. -/
theorem verifyDiscovered_fragment_witness :
    getCanonicalClaimedIdentifier
        "https://steamcommunity.com/openid/id/76561198000000000#frag" =
      String.mk
        (("https://steamcommunity.com/openid/id/76561198000000000#frag" : String).data.takeWhile
          (fun c => c ≠ '#')) ∧
    verifyDiscoveredInformation
        (fun s => if s = "https://steamcommunity.com/openid/id/76561198000000000" then
            [⟨some "https://steamcommunity.com/openid/login", none⟩] else [])
        [("openid.claimed_id", "https://steamcommunity.com/openid/id/76561198000000000#frag"),
         ("openid.signed", "s"), ("openid.sig", "g")] =
      .ok ⟨true, "https://steamcommunity.com/openid/id/76561198000000000#frag"⟩ :=
  verifyDiscovered_fragment
    (fun s => if s = "https://steamcommunity.com/openid/id/76561198000000000" then
        [⟨some "https://steamcommunity.com/openid/login", none⟩] else [])
    [("openid.claimed_id", "https://steamcommunity.com/openid/id/76561198000000000#frag"),
     ("openid.signed", "s"), ("openid.sig", "g")]
    "https://steamcommunity.com/openid/id/76561198000000000#frag" "s" "g"
    (by rfl) (by decide) (by decide) (by decide) (by rfl) (by decide) (by rfl) (by decide)

/-! ### Round-trip of the urlencoded serializer through the query parser -/

theorem hexVal_hexDigitUpper : ∀ n, n < 16 → hexVal (hexDigitUpper n) = some n := by
  decide

theorem hexDigitUpper_ne (n : Nat) : hexDigitUpper n ≠ '&' ∧ hexDigitUpper n ≠ '=' := by
  unfold hexDigitUpper
  split <;> exact ⟨by decide, by decide⟩

theorem percentDecode_cons_ne {c : Char} (h1 : c ≠ '%') (h2 : c ≠ '+') (rest : List Char) :
    percentDecode (c :: rest) = c :: percentDecode rest := by
  rw [percentDecode.eq_def]
  split
  all_goals first
    | (rename_i heq
       simp at heq
       done)
    | (exact absurd rfl h1)
    | (rename_i heq
       injection heq with hc hrest
       exact absurd hc h1)
    | (rename_i heq
       injection heq with hc hrest
       subst hc
       subst hrest
       rw [if_neg h2]
       done)

theorem percentDecode_plus (rest : List Char) :
    percentDecode ('+' :: rest) = ' ' :: percentDecode rest := by
  rw [percentDecode.eq_def]
  split
  all_goals first
    | (rename_i heq
       simp at heq
       done)
    | (rename_i heq
       injection heq with hc hrest
       exact absurd hc.symm (by decide))
    | (rename_i heq
       injection heq with hc hrest
       subst hrest
       rw [← hc, if_pos rfl]
       done)

theorem percentDecode_encodeChar {c : Char} (hc : c.toNat < 128) (rest : List Char) :
    percentDecode (encodeChar c ++ rest) = c :: percentDecode rest := by
  unfold encodeChar
  by_cases hu : isUnreservedUrl c
  · rw [if_pos hu]
    simp only [List.cons_append, List.nil_append]
    refine percentDecode_cons_ne ?_ ?_ rest
    · intro h; rw [h] at hu; exact absurd hu (by decide)
    · intro h; rw [h] at hu; exact absurd hu (by decide)
  · rw [if_neg hu]
    by_cases hsp : c = ' '
    · rw [if_pos hsp]
      simp only [List.cons_append, List.nil_append]
      rw [percentDecode_plus, hsp]
    · rw [if_neg hsp]
      simp only [List.cons_append, List.nil_append]
      have e1 : hexVal (hexDigitUpper (c.toNat / 16 % 16)) = some (c.toNat / 16 % 16) :=
        hexVal_hexDigitUpper _ (Nat.mod_lt _ (by decide))
      have e2 : hexVal (hexDigitUpper (c.toNat % 16)) = some (c.toNat % 16) :=
        hexVal_hexDigitUpper _ (Nat.mod_lt _ (by decide))
      rw [percentDecode.eq_def]
      simp only [e1, e2]
      have harith : 16 * (c.toNat / 16 % 16) + c.toNat % 16 = c.toNat := by omega
      rw [harith, Char.ofNat_toNat]

theorem encodeChar_ne_sep {c x : Char} (hx : x ∈ encodeChar c) : x ≠ '&' ∧ x ≠ '=' := by
  unfold encodeChar at hx
  by_cases hu : isUnreservedUrl c
  · rw [if_pos hu] at hx
    simp only [List.mem_singleton] at hx
    subst hx
    refine ⟨?_, ?_⟩ <;> intro h <;> rw [h] at hu <;> exact absurd hu (by decide)
  · rw [if_neg hu] at hx
    by_cases hsp : c = ' '
    · rw [if_pos hsp] at hx
      simp only [List.mem_singleton] at hx
      subst hx
      exact ⟨by decide, by decide⟩
    · rw [if_neg hsp] at hx
      simp only [List.mem_cons, List.mem_singleton] at hx
      rcases hx with h | h | h
      · subst h; exact ⟨by decide, by decide⟩
      · subst h; exact hexDigitUpper_ne _
      · rcases h with h | h
        · subst h; exact hexDigitUpper_ne _
        · exact absurd h (by simp)

theorem encodeList_ne_sep {l : List Char} {x : Char} (hx : x ∈ encodeList l) :
    x ≠ '&' ∧ x ≠ '=' := by
  unfold encodeList at hx
  rw [List.mem_flatten] at hx
  obtain ⟨p, hp, hxp⟩ := hx
  rw [List.mem_map] at hp
  obtain ⟨c, _, hc⟩ := hp
  exact encodeChar_ne_sep (hc ▸ hxp)

theorem percentDecode_encodeList {l : List Char} (hascii : ∀ c ∈ l, c.toNat < 128) :
    percentDecode (encodeList l) = l := by
  induction l with
  | nil => rfl
  | cons c t ih =>
    have : encodeList (c :: t) = encodeChar c ++ encodeList t := by
      simp [encodeList]
    rw [this, percentDecode_encodeChar (hascii c (by simp))]
    rw [ih fun x hx => hascii x (by simp [hx])]

theorem splitOnCharAux_cons (sep c : Char) (t acc : List Char) :
    splitOnCharAux sep (c :: t) acc =
      if c = sep then acc.reverse :: splitOnCharAux sep t []
      else splitOnCharAux sep t (c :: acc) := rfl

theorem splitOnCharAux_sepfree {sep : Char} :
    ∀ {l : List Char}, (∀ c ∈ l, c ≠ sep) → ∀ acc,
      splitOnCharAux sep l acc = [acc.reverse ++ l] := by
  intro l
  induction l with
  | nil => intro _ acc; simp [splitOnCharAux]
  | cons c t ih =>
    intro h acc
    rw [splitOnCharAux_cons, if_neg (h c (by simp))]
    rw [ih (fun x hx => h x (by simp [hx])) (c :: acc)]
    simp

theorem splitOnCharAux_break {sep : Char} :
    ∀ {x : List Char}, (∀ c ∈ x, c ≠ sep) → ∀ (acc rest : List Char),
      splitOnCharAux sep (x ++ sep :: rest) acc =
        (acc.reverse ++ x) :: splitOnCharAux sep rest [] := by
  intro x
  induction x with
  | nil =>
    intro _ acc rest
    simp only [List.nil_append]
    rw [splitOnCharAux_cons, if_pos rfl]
    simp
  | cons c t ih =>
    intro h acc rest
    simp only [List.cons_append]
    rw [splitOnCharAux_cons, if_neg (h c (by simp))]
    rw [ih (fun x hx => h x (by simp [hx])) (c :: acc) rest]
    simp

theorem splitOnChar_joinPieces {sep : Char} :
    ∀ {pieces : List (List Char)}, pieces ≠ [] →
      (∀ p ∈ pieces, ∀ c ∈ p, c ≠ sep) →
      splitOnChar sep (joinPieces sep pieces) = pieces := by
  intro pieces
  induction pieces with
  | nil => intro h; exact absurd rfl h
  | cons p rest ih =>
    intro _ hfree
    cases rest with
    | nil =>
      unfold joinPieces splitOnChar
      rw [splitOnCharAux_sepfree (hfree p (by simp)) []]
      simp
    | cons q t =>
      show splitOnChar sep (p ++ sep :: joinPieces sep (q :: t)) = p :: q :: t
      unfold splitOnChar
      rw [splitOnCharAux_break (hfree p (by simp)) [] _]
      simp only [List.reverse_nil, List.nil_append]
      have := ih (by simp) (fun r hr c hc => hfree r (by simp [hr]) c hc)
      unfold splitOnChar at this
      rw [this]

theorem splitKV_cons (c : Char) (t : List Char) :
    splitKV (c :: t) =
      if c = '=' then ([], t) else (c :: (splitKV t).1, (splitKV t).2) := rfl

theorem splitKV_encoded {k : List Char} :
    (∀ c ∈ k, c ≠ '=') → ∀ v : List Char, splitKV (k ++ '=' :: v) = (k, v) := by
  induction k with
  | nil =>
    intro _ v
    simp only [List.nil_append]
    rw [splitKV_cons, if_pos rfl]
  | cons c t ih =>
    intro h v
    simp only [List.cons_append]
    rw [splitKV_cons, if_neg (h c (by simp))]
    rw [ih (fun x hx => h x (by simp [hx])) v]

/-- The query parser inverts the urlencoded serializer on ASCII pairs. -/
theorem parseQuery_serializeQuery {ps : List (String × String)} (hne : ps ≠ [])
    (hascii : ∀ kv ∈ ps, (∀ c ∈ (kv.1 : String).data, c.toNat < 128) ∧
       (∀ c ∈ (kv.2 : String).data, c.toNat < 128)) :
    parseQuery (serializeQuery ps) = ps := by
  unfold parseQuery serializeQuery
  have hsplit : splitOnChar '&'
      (joinPieces '&' (ps.map fun kv => encodeList kv.1.data ++ '=' :: encodeList kv.2.data)) =
      ps.map fun kv => encodeList kv.1.data ++ '=' :: encodeList kv.2.data := by
    refine splitOnChar_joinPieces (by simp [hne]) ?_
    intro p hp c hc
    rw [List.mem_map] at hp
    obtain ⟨kv, _, hkv⟩ := hp
    rw [← hkv] at hc
    rcases List.mem_append.mp hc with h | h
    · exact (encodeList_ne_sep h).1
    · rcases List.mem_cons.mp h with h | h
      · rw [h]; decide
      · exact (encodeList_ne_sep h).1
  rw [hsplit]
  have hfilter : (ps.map fun kv => encodeList kv.1.data ++ '=' :: encodeList kv.2.data).filter
      (· ≠ []) = ps.map fun kv => encodeList kv.1.data ++ '=' :: encodeList kv.2.data := by
    rw [List.filter_eq_self]
    intro p hp
    rw [List.mem_map] at hp
    obtain ⟨kv, _, hkv⟩ := hp
    rw [← hkv]
    simp
  rw [hfilter, List.map_map]
  have hid : ∀ kv ∈ ps,
      ((fun piece =>
          let kv2 := splitKV piece
          (String.mk (percentDecode kv2.1), String.mk (percentDecode kv2.2))) ∘
        fun kv => encodeList kv.1.data ++ '=' :: encodeList kv.2.data) kv = kv := by
    intro kv hkv
    simp only [Function.comp_apply]
    rw [splitKV_encoded (fun c hc => (encodeList_ne_sep hc).2) _]
    simp only
    rw [percentDecode_encodeList (hascii kv hkv).1, percentDecode_encodeList (hascii kv hkv).2]
  rw [List.map_congr_left hid]
  exact List.map_id ps

/-- A serialized URL is never the empty string (it contains `//`). -/
theorem urlToString_ne_empty (u : URLRec) : urlToString u ≠ "" := by
  intro h
  have hdata : (urlToString u).data =
      u.protocol.data ++ "//".data ++ u.host.data ++ u.pathname.data ++
        u.search.data ++ u.hash.data := rfl
  rw [h] at hdata
  have : ("//" : String).data = ['/', '/'] := rfl
  rw [this] at hdata
  simp at hdata

/-- C9 counterexample: a discovery result with at least one provider that
has an endpoint (the second one), for which `authenticate` nevertheless
fails with `MissingEndpoint` instead of returning a redirect URL, because
the first candidate has none and its exception propagates. -/
theorem authenticate_first_endpoint_required :
    authenticate
        (fun _ => [⟨none, none⟩,
                   ⟨some "https://steamcommunity.com/openid/login?old=1", none⟩])
        "op-identifier" "https://b.example/return" = .error .MissingEndpoint ∧
    VErr.MissingEndpoint ≠ VErr.NoUsableProviders :=
  ⟨rfl, by decide⟩

/-- C9 (amended): when the first discovered provider has a parsable
endpoint, `authenticate` returns the absolute URL built from that
endpoint with any pre-existing query string discarded, whose query decodes
back to exactly the five fixed parameters: `openid.mode=checkid_setup`,
the OpenID 2.0 namespace, `openid.claimed_id` and `openid.identity` both
the identifier-select sentinel, and `openid.return_to=<returnUrl>`
exactly (for an ASCII returnUrl). -/
theorem authenticate_builds_redirect_url (disc : String → List Provider)
    (identifier returnUrl e : String) (p : Provider) (rest : List Provider) (u : URLRec)
    (hdisc : disc identifier = p :: rest)
    (hend : p.endpoint = some e)
    (hu : parseURL e = some u)
    (hascii : ∀ c ∈ returnUrl.data, c.toNat < 128) :
    authenticate disc identifier returnUrl =
      .ok (urlToString
        { protocol := u.protocol, host := u.host, pathname := u.pathname,
          search := String.mk ('?' :: serializeQuery (authParams returnUrl)),
          hash := u.hash }) ∧
    parseQuery (serializeQuery (authParams returnUrl)) = authParams returnUrl ∧
    getParam (authParams returnUrl) "openid.mode" = some "checkid_setup" ∧
    getParam (authParams returnUrl) "openid.ns" = some "http://specs.openid.net/auth/2.0" ∧
    getParam (authParams returnUrl) "openid.claimed_id" =
      some "http://specs.openid.net/auth/2.0/identifier_select" ∧
    getParam (authParams returnUrl) "openid.identity" =
      some "http://specs.openid.net/auth/2.0/identifier_select" ∧
    getParam (authParams returnUrl) "openid.return_to" = some returnUrl := by
  have he : e ≠ "" := by
    intro hE
    rw [hE] at hu
    have hnone : parseURL "" = (none : Option URLRec) := rfl
    rw [hnone] at hu
    exact absurd hu (by simp)
  have hround : parseQuery (serializeQuery (authParams returnUrl)) = authParams returnUrl := by
    refine parseQuery_serializeQuery (by simp [authParams]) ?_
    intro kv hkv
    simp only [authParams, List.mem_cons, List.not_mem_nil, or_false] at hkv
    rcases hkv with h | h | h | h | h
    · rw [h]; exact ⟨by decide, by decide⟩
    · rw [h]; exact ⟨by decide, by decide⟩
    · rw [h]; exact ⟨by decide, by decide⟩
    · rw [h]; exact ⟨by decide, by decide⟩
    · rw [h]
      constructor
      · show ∀ c ∈ ("openid.return_to" : String).data, c.toNat < 128
        decide
      · exact hascii
  refine ⟨?_, hround, rfl, rfl, rfl, rfl, rfl⟩
  unfold authenticate
  simp only [hdisc]
  unfold chooseProvider
  have hreq : requestAuthentication p returnUrl =
      .ok (urlToString
        { protocol := u.protocol, host := u.host, pathname := u.pathname,
          search := String.mk ('?' :: serializeQuery (authParams returnUrl)),
          hash := u.hash }) := by
    unfold requestAuthentication
    simp only [hend]
    rw [if_neg he]
    unfold buildUrl
    simp only [hu]
    rw [if_neg (by simp [authParams] : ¬ (authParams returnUrl = []))]
  simp only [hreq]
  rw [if_neg (urlToString_ne_empty _)]

set_option maxRecDepth 1000000 in
/-- C9 witness: a concrete endpoint carrying a pre-existing query string
(`?old=1`), which is discarded in the returned redirect URL. -/
theorem authenticate_builds_redirect_url_witness :
    authenticate (fun _ => [⟨some "https://steamcommunity.com/openid/login?old=1", none⟩])
        "https://steamcommunity.com/openid/id/76561198000000002" "https://a.example/cb" =
      .ok (urlToString
        { protocol := "https:", host := "steamcommunity.com", pathname := "/openid/login",
          search := String.mk ('?' :: serializeQuery (authParams "https://a.example/cb")),
          hash := "" }) ∧
    parseQuery (serializeQuery (authParams "https://a.example/cb")) =
      authParams "https://a.example/cb" ∧
    getParam (authParams "https://a.example/cb") "openid.mode" = some "checkid_setup" ∧
    getParam (authParams "https://a.example/cb") "openid.ns" =
      some "http://specs.openid.net/auth/2.0" ∧
    getParam (authParams "https://a.example/cb") "openid.claimed_id" =
      some "http://specs.openid.net/auth/2.0/identifier_select" ∧
    getParam (authParams "https://a.example/cb") "openid.identity" =
      some "http://specs.openid.net/auth/2.0/identifier_select" ∧
    getParam (authParams "https://a.example/cb") "openid.return_to" =
      some "https://a.example/cb" :=
  authenticate_builds_redirect_url
    (fun _ => [⟨some "https://steamcommunity.com/openid/login?old=1", none⟩])
    "https://steamcommunity.com/openid/id/76561198000000002" "https://a.example/cb"
    "https://steamcommunity.com/openid/login?old=1"
    ⟨some "https://steamcommunity.com/openid/login?old=1", none⟩ []
    ⟨"https:", "steamcommunity.com", "/openid/login", "?old=1", ""⟩
    (by rfl) (by rfl) (by rfl) (by decide)
